import Mathlib

/-!
# Verification of the shopify-bulk-scripts reconciliation core

Shallow embedding of the three scripts of the repository:

* `src/nz-bulk-upload-adidas-women/bulk-upload-shopify-women.py` — the
  scrape / reconcile / bulk-upload pipeline (namespace `BulkUpload`);
* `src/duplicate-delete/find_duplicate_skus.py` — the duplicate finder
  (namespace `DupFinder`);
* `src/duplicate-delete/delete_duplicate_products.py` — the confirmed
  bulk-delete runner (namespace `DupDelete`).

Remote calls (`requests.post` against the Shopify GraphQL endpoint) are
modelled by explicit oracles: a pure function from the request's key to the
response the remote would give, so one run of a Python loop becomes a fold
over its input list with the oracle supplied as an argument.  File writes
are modelled by returning the written value.
-/

namespace ShopifyBulk

/-! ## String primitives

Lean's built-in `String` functions (`splitOn`, `startsWith`, `replace`,
string order) are implemented on byte positions and do not reduce in the
kernel, so the few string operations the Python code uses are re-implemented
here over `String.data` (the list of characters), with Python's semantics:
code-point comparison, single-character splitting, textual prefix tests. -/

/-- Strict lexicographic comparison of two character lists by code point:
Python's `<` on `str`. -/
def lexLt : List Char → List Char → Bool
  | [], [] => false
  | [], _ :: _ => true
  | _ :: _, [] => false
  | a :: as, b :: bs =>
    if a.val.toNat < b.val.toNat then true
    else if b.val.toNat < a.val.toNat then false
    else lexLt as bs

/-- `strLe a b` is Python's `a <= b` on strings. -/
def strLe (a b : String) : Bool := !(lexLt b.data a.data)

/-- `s.split(sep)[0]` for a single-character separator: the prefix of `s`
before the first occurrence of `sep` (all of `s` when `sep` is absent). -/
def takeUntilChar (sep : Char) (s : String) : String :=
  ⟨s.data.takeWhile (fun c => c ≠ sep)⟩

/-- `stripLeading pat cs` removes `pat` from the front of `cs`, or `none`
when `cs` does not start with `pat`. -/
def stripLeading : List Char → List Char → Option (List Char)
  | [], cs => some cs
  | _ :: _, [] => none
  | p :: ps, c :: cs => if c = p then stripLeading ps cs else none

/-- Python's `s.startswith(pre)`. -/
def strStartsWith (pre s : String) : Bool := (stripLeading pre.data s.data).isSome

/-- Fuelled worker for `replaceAllWithEmpty`: scans left to right, dropping
every non-overlapping occurrence of `pat`.  The fuel is the length of the
scanned list, enough for a non-empty pattern. -/
def removeAllGo (pat : List Char) : Nat → List Char → List Char
  | 0, cs => cs
  | _ + 1, [] => []
  | fuel + 1, c :: cs =>
    match stripLeading pat (c :: cs) with
    | some rest => removeAllGo pat fuel rest
    | none => c :: removeAllGo pat fuel cs

/-- Python's `s.replace(pat, "")` for a non-empty `pat`: every
non-overlapping occurrence of `pat` in `s` is removed, scanning left to
right. -/
def replaceAllWithEmpty (pat s : String) : String :=
  ⟨removeAllGo pat.data s.data.length s.data⟩

/-! ## Decimal numbers

`float(...)` applied to the price strings of this pipeline.  The scripts
compare prices that are decimal literals (the scraper stores
`str(math.ceil(...))`, small integers), for which conversion to binary
float is exact and order-preserving, so the embedding uses the exact
decimal value: a mantissa over a power of ten. -/

/-- Exact value of a decimal literal: `mantissa / 10 ^ scale`. -/
structure Dec where
  mantissa : Int
  scale : Nat
deriving Repr, DecidableEq

/-- `a < b` on exact decimal values (cross-multiplied, denominators are
positive powers of ten). -/
def Dec.ltb (a b : Dec) : Bool := a.mantissa * 10 ^ b.scale < b.mantissa * 10 ^ a.scale

/-- `0 < a` on exact decimal values. -/
def Dec.posb (a : Dec) : Bool := 0 < a.mantissa

/-- ASCII digit test. -/
def isDigitChar (c : Char) : Bool := 48 ≤ c.val.toNat && c.val.toNat ≤ 57

/-- Value of a digit string, most significant first. -/
def digitsToNat (cs : List Char) : Nat :=
  cs.foldl (fun n c => n * 10 + (c.val.toNat - 48)) 0

/-- Parse an unsigned decimal literal (`"12"`, `"12.5"`, `".5"`, `"5."`),
`none` on anything else — the inputs on which Python's `float` raises
`ValueError`. -/
def parseUnsignedDec (cs : List Char) : Option Dec :=
  let intPart := cs.takeWhile isDigitChar
  match cs.dropWhile isDigitChar with
  | [] => if intPart = [] then none else some ⟨digitsToNat intPart, 0⟩
  | c :: frac =>
    if c = '.' ∧ frac.all isDigitChar ∧ ¬(intPart = [] ∧ frac = []) then
      some ⟨digitsToNat (intPart ++ frac), frac.length⟩
    else none

/-- Parse a signed decimal literal, as Python's `float` reads the price
strings of this pipeline. -/
def parseDec (s : String) : Option Dec :=
  match s.data with
  | '-' :: rest => (parseUnsignedDec rest).map (fun d => ⟨-d.mantissa, d.scale⟩)
  | '+' :: rest => parseUnsignedDec rest
  | cs => parseUnsignedDec cs

/-- `float(x or 0)` for a string-valued field `x`: an empty string is the
falsy value, replaced by `0` before conversion. -/
def pyFloatOrZero (s : String) : Option Dec :=
  if s = "" then some ⟨0, 0⟩ else parseDec s

end ShopifyBulk

namespace ShopifyBulk.BulkUpload

/-! ## Data model of `bulk-upload-shopify-women.py` -/

/-- One variant of `product_upload_data["variants"]`: name (size), UPC
barcode and the quantity derived from the page's buttons. -/
structure Variant where
  name : String
  upc : String
  quantity : Nat
deriving Repr, DecidableEq

/-- One entry of `all_product_data`, as assembled at the end of the scrape
loop (`product_upload_data`). -/
structure ProductRecord where
  sku : String
  name : String
  price : String
  previousPrice : String
  originalCost : String
  description : String
  images : List String
  variants : List Variant
  gender : String
  productType : String
  brand : String
deriving Repr, DecidableEq

/-- One listing item reaching the inner `for item in data['items']` loop:
its `plu` from the listing page, and the outcome of processing it —
`some record` when every fetch/extraction step succeeds and
`product_upload_data` is appended, `none` when any of the skip paths fires
(timeout, connection error, missing `recentData` div, empty price, image
or price extraction error).  The record's `sku` field is the `plu` the
product page reports; for a well-formed scrape it equals the listing
`plu` (hypothesis `ScrapeWF`). -/
structure ScrapeItem where
  plu : String
  result : Option ProductRecord
deriving Repr, DecidableEq

/-- The loop state: `seen` is `current_jd_skus` (insertion at the head; only
membership matters) and `data` is `all_product_data` in append order. -/
structure ScrapeState where
  seen : List String
  data : List ProductRecord
deriving Repr, DecidableEq

/-- One iteration of the item loop: a `plu` already in `current_jd_skus` is
skipped outright; otherwise a truthy (non-empty) `plu` is added to
`current_jd_skus` before the product fetch is attempted, and the record is
appended only when processing succeeds. -/
def scrapeStep (st : ScrapeState) (item : ScrapeItem) : ScrapeState :=
  if item.plu ∈ st.seen then st
  else
    let seen' := if item.plu ≠ "" then item.plu :: st.seen else st.seen
    match item.result with
    | some rec => { seen := seen', data := st.data ++ [rec] }
    | none => { seen := seen', data := st.data }

/-- The whole scrape: the listing items of all pages of all URLs, in order.
(A page whose fetch raises calls `sys.exit(1)`, so a run that reaches the
reconciliation tail has processed exactly such a list.) -/
def scrapeItems (items : List ScrapeItem) : ScrapeState :=
  items.foldl scrapeStep { seen := [], data := [] }

/-- A scrape is well formed when every listing `plu` is non-empty and every
successful record reports the same `plu` on its product page as the listing
did. -/
def ScrapeWF (items : List ScrapeItem) : Prop :=
  ∀ it ∈ items, it.plu ≠ "" ∧ ∀ rec, it.result = some rec → rec.sku = it.plu

instance : DecidablePred ScrapeWF := fun items =>
  inferInstanceAs (Decidable (∀ it ∈ items, _ ∧ _))

/-! ## Identity store (`processed_skus.json`) -/

/-- The value stored per SKU: `{"name": ..., "processed_at": ...}`. -/
structure SkuMeta where
  name : String
  processedAt : String
deriving Repr, DecidableEq

/-- The identity store: a JSON object, modelled as an insertion-ordered
association list (Python dicts preserve insertion order). -/
abbrev IdentityStore := List (String × SkuMeta)

/-- `dict[k] = v`: overwrite in place when the key exists, append otherwise. -/
def upsert (k : String) (v : SkuMeta) : IdentityStore → IdentityStore
  | [] => [(k, v)]
  | (k', v') :: rest => if k' = k then (k, v) :: rest else (k', v') :: upsert k v rest

/-- `dict[k]` / `dict.get(k)`: the value stored at key `k`. -/
def lookupStore (k : String) : IdentityStore → Option SkuMeta
  | [] => none
  | (k', v) :: rest => if k' = k then some v else lookupStore k rest

/-- The rewrite at the end of `fetch_total_product_counts`: a fresh dict
`latest_processed_skus` holding, for every record of `all_product_data`,
its `sku` mapped to its `name` and `json.dumps(None)` (the string
`"null"`) as `processed_at`. -/
def latestProcessedSkus (data : List ProductRecord) : IdentityStore :=
  data.foldl (fun m p => upsert p.sku ⟨p.name, "null"⟩ m) []

/-! ## Tags and the JSONL encoding (`generate_product_jsonl`) -/

/-- `is_discounted` as computed (identically) on the update and the create
path: both price fields converted with `float(x or 0)`, `True` exactly when
both conversions succeed, both values are positive and the previous price
exceeds the price; any `ValueError` yields `False`. -/
def isDiscounted (p : ProductRecord) : Bool :=
  match pyFloatOrZero p.price, pyFloatOrZero p.previousPrice with
  | some priceVal, some prevVal => prevVal.posb && priceVal.posb && priceVal.ltb prevVal
  | _, _ => false

/-- `base_tags` (plus the conditional `"discounted"`), as built on both the
update and the create path. -/
def buildTags (p : ProductRecord) : List String :=
  ["uploaded_by_script", "nz-prod", "sku:" ++ p.sku, "new",
   p.gender, p.productType, p.brand] ++
  (if isDiscounted p then ["discounted"] else [])

/-- One element of the `variants` array of a productSet payload. -/
structure VariantLine where
  price : String
  sku : String
  barcode : String
  compareAtPrice : String
  cost : String
  optionValueName : String
  quantity : Nat
  locationId : String
deriving Repr, DecidableEq

/-- One element of the `files` array of a productSet payload. -/
structure FileLine where
  alt : String
  originalSource : String
  filename : String
deriving Repr, DecidableEq

/-- The variant payload shared by the update and the create encodings. -/
def encodeVariantLine (p : ProductRecord) (v : Variant) : VariantLine :=
  { price := p.price
    sku := takeUntilChar '_' p.sku
    barcode := v.upc
    compareAtPrice := if p.previousPrice ≠ "" then p.previousPrice else "0"
    cost := p.originalCost
    optionValueName := v.name
    quantity := v.quantity
    locationId := "gid://shopify/Location/78755004615" }

/-- The `files` array: one entry per image, enumerated from 1, the URL
stripped at its first `?`, the filename built by `fmt` from the product
name and the index (the update and create paths use different formats). -/
def encodeFiles (p : ProductRecord) (fmt : String → Nat → String) : List FileLine :=
  p.images.enum.map (fun e =>
    { alt := p.name ++ " image"
      originalSource := takeUntilChar '?' e.2
      filename := fmt p.name (e.1 + 1) })

/-- Update-path filename: `f"{name}-LUZActive-Image-{index}"`. -/
def updateFileName (name : String) (idx : Nat) : String :=
  name ++ "-LUZActive-Image-" ++ toString idx

/-- Create-path filename: `f"{name} - LUZActive - Image {index}"`. -/
def createFileName (name : String) (idx : Nat) : String :=
  name ++ " - LUZActive - Image " ++ toString idx

/-- The update payload written for an existing product: carries the Shopify
product `id`, no title/vendor/description. -/
structure UpdateInput where
  id : String
  tags : List String
  optionValues : List String
  variants : List VariantLine
  files : List FileLine
deriving Repr, DecidableEq

/-- The create payload written for a new product. -/
structure CreateInput where
  title : String
  status : String
  productType : String
  vendor : String
  descriptionHtml : String
  tags : List String
  optionValues : List String
  variants : List VariantLine
  files : List FileLine
deriving Repr, DecidableEq

/-- The update line of `products.jsonl` for product `p` at Shopify id
`shopifyId`. -/
def encodeUpdateInput (shopifyId : String) (p : ProductRecord) : UpdateInput :=
  { id := shopifyId
    tags := buildTags p
    optionValues := p.variants.map (fun v => v.name)
    variants := p.variants.map (encodeVariantLine p)
    files := encodeFiles p updateFileName }

/-- The create line of `products.jsonl` for product `p`. -/
def encodeCreateInput (p : ProductRecord) : CreateInput :=
  { title := p.name
    status := "DRAFT"
    productType := p.productType
    vendor := p.brand
    descriptionHtml := "<p>" ++ p.description ++ "</p>"
    tags := buildTags p
    optionValues := p.variants.map (fun v => v.name)
    variants := p.variants.map (encodeVariantLine p)
    files := encodeFiles p createFileName }

/-- One line of `products.jsonl`. -/
inductive JsonlLine where
  | update (u : UpdateInput)
  | create (c : CreateInput)
deriving Repr, DecidableEq

/-! ## Classification (`generate_product_jsonl`, decision phase)

`get_shopify_product_id` is modelled by the oracle
`lookup : String → Option String`: the Shopify id found by the tag query
for a SKU, `none` on a miss (and on a request or GraphQL error, which the
function also turns into `None`). -/

/-- One iteration of the decision loop: a SKU found in `processed_skus` is
looked up remotely — a hit appends `(shopify_id, product)` to the updates,
a miss degrades to create ("treating as new"); a SKU non in the store is a
create unconditionally. -/
def classifyStep (lookup : String → Option String) (ks : List String)
    (acc : List (String × ProductRecord) × List ProductRecord) (p : ProductRecord) :
    List (String × ProductRecord) × List ProductRecord :=
  if p.sku ∈ ks then
    match lookup p.sku with
    | some sid => (acc.1 ++ [(sid, p)], acc.2)
    | none => (acc.1, acc.2 ++ [p])
  else (acc.1, acc.2 ++ [p])

/-- The decision phase of `generate_product_jsonl` over the whole product
list: the updates (with their Shopify ids, in input order) and the creates
(in input order). -/
def classifyProducts (lookup : String → Option String) (ks : List String)
    (ps : List ProductRecord) : List (String × ProductRecord) × List ProductRecord :=
  ps.foldl (classifyStep lookup ks) ([], [])

/-- The write phase of `generate_product_jsonl`: one line per update first,
then one line per create, each loop appending in input order. -/
def writeJsonl (us : List UpdateInput) (cs : List ProductRecord) : List JsonlLine :=
  let afterUpdates := us.foldl (fun ls u => ls ++ [JsonlLine.update u]) []
  cs.foldl (fun ls p => ls ++ [JsonlLine.create (encodeCreateInput p)]) afterUpdates

/-! ## Deletion (`delete_products_from_shopify`) -/

/-- The remote's answer to one `productDelete` mutation. -/
inductive DeleteResponse where
  | requestError
  | graphqlError
  | userError
  | deletedOk
  | emptyBody
deriving Repr, DecidableEq

/-- One iteration of the deletion loop: look the SKU up
(`get_shopify_product_id`); a miss logs and skips the SKU (counted
failed); otherwise issue the `productDelete` mutation and count the SKU
successful only on a clean `deletedProductId`.  Every branch `continue`s. -/
def deleteStep (lookup : String → Option String) (resp : String → DeleteResponse)
    (acc : Nat × Nat) (sku : String) : Nat × Nat :=
  match lookup sku with
  | none => (acc.1, acc.2 + 1)
  | some pid =>
    match resp pid with
    | .deletedOk => (acc.1 + 1, acc.2)
    | _ => (acc.1, acc.2 + 1)

/-- `delete_products_from_shopify` over the SKUs selected for deletion:
returns `(successfully_deleted, failed_deletions)`. -/
def deleteRun (lookup : String → Option String) (resp : String → DeleteResponse)
    (skus : List String) : Nat × Nat :=
  skus.foldl (deleteStep lookup resp) (0, 0)

/-! ## The reconciliation tail of `fetch_total_product_counts` -/

/-- Everything the tail of a run computes from the loaded store and the
scrape: `current_jd_skus`, `all_product_data`, `skus_to_delete`, the store
as it stands after the `del processed_skus[sku]` loop, the classification,
the written JSONL and the store rewritten at the end. -/
structure RunResult where
  currentIds : List String
  scrapedData : List ProductRecord
  deletions : List String
  storeAfterDeletions : List String
  updates : List (String × ProductRecord)
  creates : List ProductRecord
  jsonlLines : List JsonlLine
  persisted : IdentityStore

/-- The reconciliation tail (lines 920–955 of the script):
`skus_to_delete = previous_skus - current_jd_skus`; those keys are removed
from `processed_skus`; `generate_product_jsonl` classifies against the
remaining keys; `latest_processed_skus` is rebuilt from `all_product_data`
and saved wholesale. -/
def runReconcile (lookup : String → Option String) (store : IdentityStore)
    (items : List ScrapeItem) : RunResult :=
  let st := scrapeItems items
  let prevKeys := store.map Prod.fst
  let dels := prevKeys.filter (fun k => k ∉ st.seen)
  let ksAfter := prevKeys.filter (fun k => k ∉ dels)
  let classified := classifyProducts lookup ksAfter st.data
  { currentIds := st.seen
    scrapedData := st.data
    deletions := dels
    storeAfterDeletions := ksAfter
    updates := classified.1
    creates := classified.2
    jsonlLines := writeJsonl (classified.1.map (fun u => encodeUpdateInput u.1 u.2)) classified.2
    persisted := latestProcessedSkus st.data }

/-! ## Job admission gate
(`check_bulk_operation_status`, `wait_for_bulk_operation_completion`,
`run_bulk_product_set_with_queue`)

The remote is modelled as the list of responses successive status queries
would receive. -/

/-- The `currentBulkOperation` field of a successful query: id and status
string (`CREATED`, `RUNNING`, `COMPLETED`, `FAILED`, `CANCELED`, or
anything else the platform might report). -/
structure BulkJobInfo where
  id : String
  status : String
deriving Repr, DecidableEq

/-- What one status query can come back as: a transport error
(`requests` raised), a body that is not JSON (`response.json()` raised), a
GraphQL-level `errors` key, or a well-formed reply whose
`currentBulkOperation` is `none` (no current job) or a job. -/
inductive QueryResponse where
  | requestError
  | invalidJson
  | graphqlErrors
  | ok (job : Option BulkJobInfo)
deriving Repr, DecidableEq

/-- `check_bulk_operation_status`: every failure path `return None`, a
well-formed reply returns its (possibly null) `currentBulkOperation`. -/
def checkBulkOperationStatus : QueryResponse → Option BulkJobInfo
  | .requestError => none
  | .invalidJson => none
  | .graphqlErrors => none
  | .ok job => job

/-- The statuses on which `wait_for_bulk_operation_completion` breaks out
of its loop when a job is present. -/
def isTerminalStatus (s : String) : Bool :=
  s = "COMPLETED" || s = "FAILED" || s = "CANCELED"

/-- `wait_for_bulk_operation_completion` run against the response list:
`none` from the status check or a terminal status breaks immediately; any
other job status (active `RUNNING`/`CREATED`, or unknown) sleeps
`check_interval` seconds and re-queries, with no retry cap.  Returns
`some (sleeps, rest)` — the number of sleep-poll cycles performed and the
responses left unconsumed — or `none` when the supplied list runs out
while the loop is still waiting. -/
def waitForBulkOperationCompletion : List QueryResponse → Option (Nat × List QueryResponse)
  | [] => none
  | r :: rest =>
    match checkBulkOperationStatus r with
    | none => some (0, rest)
    | some info =>
      if isTerminalStatus info.status then some (0, rest)
      else
        match waitForBulkOperationCompletion rest with
        | some p => some (p.1 + 1, p.2)
        | none => none

/-- `run_bulk_product_set_with_queue`: wait for the gate, then issue the
`bulkOperationRunMutation` request exactly once.  Returns
`some (sleeps, submissions)`; `none` when the gate never opened within the
supplied responses (the loop is still polling). -/
def runBulkProductSetWithQueue (responses : List QueryResponse) : Option (Nat × Nat) :=
  match waitForBulkOperationCompletion responses with
  | some p => some (p.1, 1)
  | none => none

end ShopifyBulk.BulkUpload

namespace ShopifyBulk

/-! ## Lemmas about the code-point order used by the duplicate finder -/

lemma lexLt_irrefl : ∀ as : List Char, lexLt as as = false := by
  intro as
  induction as with
  | nil => rfl
  | cons a as ih =>
    rw [lexLt, if_neg (Nat.lt_irrefl _), if_neg (Nat.lt_irrefl _)]
    exact ih

lemma lexLt_asymm : ∀ as bs : List Char, lexLt as bs = true → lexLt bs as = false := by
  intro as
  induction as with
  | nil =>
    intro bs h
    cases bs with
    | nil => exact absurd h (by rw [lexLt]; exact Bool.false_ne_true)
    | cons b bs => rw [lexLt]
  | cons a as ih =>
    intro bs h
    cases bs with
    | nil => exact absurd h (by rw [lexLt]; exact Bool.false_ne_true)
    | cons b bs =>
      rw [lexLt] at h ⊢
      by_cases h1 : a.val.toNat < b.val.toNat
      · rw [if_neg (Nat.lt_asymm h1), if_pos h1]
      · rw [if_neg h1] at h
        by_cases h2 : b.val.toNat < a.val.toNat
        · rw [if_pos h2] at h
          exact absurd h (by decide)
        · rw [if_neg h2] at h
          rw [if_neg h2, if_neg h1]
          exact ih bs h

lemma lexLt_lt_of_lt_of_not_lt : ∀ as bs cs : List Char,
    lexLt as cs = true → lexLt bs cs = false → lexLt as bs = true := by
  intro as
  induction as with
  | nil =>
    intro bs cs h hb
    cases cs with
    | nil => exact absurd h (by rw [lexLt]; exact Bool.false_ne_true)
    | cons c cs =>
      cases bs with
      | nil => simp [lexLt] at hb
      | cons b bs => rw [lexLt]
  | cons a as ih =>
    intro bs cs h hb
    cases cs with
    | nil => exact absurd h (by rw [lexLt]; exact Bool.false_ne_true)
    | cons c cs =>
      cases bs with
      | nil => simp [lexLt] at hb
      | cons b bs =>
        rw [lexLt] at h hb ⊢
        by_cases hbc : b.val.toNat < c.val.toNat
        · rw [if_pos hbc] at hb
          exact absurd hb (by decide)
        · rw [if_neg hbc] at hb
          by_cases hac : a.val.toNat < c.val.toNat
          · by_cases hcb : c.val.toNat < b.val.toNat
            · rw [if_pos (Nat.lt_trans hac hcb)]
            · have hcb' : c.val.toNat = b.val.toNat := Nat.le_antisymm
                (Nat.le_of_not_lt hbc) (Nat.le_of_not_lt hcb)
              rw [if_pos (hcb' ▸ hac)]
          · rw [if_neg hac] at h
            by_cases hca : c.val.toNat < a.val.toNat
            · rw [if_pos hca] at h
              exact absurd h (by decide)
            · rw [if_neg hca] at h
              have hac' : a.val.toNat = c.val.toNat := Nat.le_antisymm
                (Nat.le_of_not_lt hca) (Nat.le_of_not_lt hac)
              by_cases hcb : c.val.toNat < b.val.toNat
              · rw [if_pos (hac' ▸ hcb)]
              · rw [if_neg hcb] at hb
                have hcb' : c.val.toNat = b.val.toNat := Nat.le_antisymm
                  (Nat.le_of_not_lt hbc) (Nat.le_of_not_lt hcb)
                have hab : a.val.toNat = b.val.toNat := hac'.trans hcb'
                rw [if_neg (hab ▸ Nat.lt_irrefl _), if_neg (fun hh => Nat.lt_irrefl _ (hab ▸ hh))]
                exact ih bs cs h hb

end ShopifyBulk

namespace ShopifyBulk.DupFinder

/-! ## Data model of `find_duplicate_skus.py` -/

/-- One product node of the catalog export (`fetch_all_products`): id,
title, tags and `createdAt` (an ISO-8601 string; the script sorts these
strings, which on this format is chronological order). -/
structure CatalogProduct where
  id : String
  title : String
  tags : List String
  createdAt : String
deriving Repr, DecidableEq

/-- The SKU a product's tags declare: the first tag starting with `"sku:"`,
with every occurrence of `"sku:"` removed (`tag.replace("sku:", "")`);
`none` when no tag has the prefix. -/
def skuFromTags (tags : List String) : Option String :=
  (tags.find? (fun t => strStartsWith "sku:" t)).map (replaceAllWithEmpty "sku:")

/-- Append `e` to the group keyed `k`, creating the group at the end on a
new key — `defaultdict(list)` updated under Python's insertion order. -/
def groupInsert (k : String) (e : CatalogProduct) :
    List (String × List CatalogProduct) → List (String × List CatalogProduct)
  | [] => [(k, [e])]
  | (k', es) :: rest =>
    if k' = k then (k', es ++ [e]) :: rest else (k', es) :: groupInsert k e rest

/-- `find_duplicates`: partition the catalog by declared SKU (products
without a `sku:` tag go to the second component), then keep only the
groups with more than one member. -/
def findDuplicates (products : List CatalogProduct) :
    List (String × List CatalogProduct) × List CatalogProduct :=
  let acc := products.foldl (fun acc p =>
    match skuFromTags p.tags with
    | some sku => (groupInsert sku p acc.1, acc.2)
    | none => (acc.1, acc.2 ++ [p])) ([], [])
  (acc.1.filter (fun g => 1 < g.2.length), acc.2)

/-- Insert into a list sorted by `createdAt`, before the first member that
is not strictly earlier — a stable insertion matching Python's stable
`sorted(..., key=lambda x: x["created_at"])`. -/
def insertByCreated (p : CatalogProduct) : List CatalogProduct → List CatalogProduct
  | [] => [p]
  | q :: qs =>
    if lexLt q.createdAt.data p.createdAt.data then q :: insertByCreated p qs
    else p :: q :: qs

/-- `sorted(products, key=lambda x: x["created_at"])`: ascending, stable. -/
def sortByCreated : List CatalogProduct → List CatalogProduct
  | [] => []
  | p :: ps => insertByCreated p (sortByCreated ps)

/-- One entry of `products_to_delete.json`. -/
structure DeleteItem where
  id : String
  title : String
  reason : String
  createdAt : String
deriving Repr, DecidableEq

/-- The deletion entry `generate_delete_script` writes for a member of the
duplicate group keyed `sku`. -/
def mkDeleteItem (sku : String) (p : CatalogProduct) : DeleteItem :=
  { id := p.id, title := p.title
    reason := "Duplicate SKU tag: " ++ sku, createdAt := p.createdAt }

/-- The deletion candidates one group contributes: its members sorted by
creation time ascending, all but the last (`sorted_products[:-1]`). -/
def candidatesOfGroup (sku : String) (es : List CatalogProduct) : List DeleteItem :=
  ((sortByCreated es).dropLast).map (mkDeleteItem sku)

/-- `generate_delete_script`: the concatenated candidates of every
duplicate group, in group order. -/
def deleteCandidates (groups : List (String × List CatalogProduct)) : List DeleteItem :=
  groups.foldl (fun acc g => acc ++ candidatesOfGroup g.1 g.2) []

end ShopifyBulk.DupFinder

namespace ShopifyBulk.DupDelete

open ShopifyBulk.DupFinder (DeleteItem)

/-! ## Model of `delete_duplicate_products.py`

`delete_product` is modelled by the oracle `remote : String → Bool`
(whether the `productDelete` mutation for a product id succeeds); the
observable effects of a run are the ids actually sent to the remote and
the writes of `deletion_log.json`. -/

/-- The observable effects of `delete_products_from_file`: every product id
a `productDelete` request was issued for, in order, and how many times the
deletion log file was written (the every-50-items checkpoints plus the
final write). -/
structure DeletionRunTrace where
  requests : List String
  logWrites : Nat
deriving Repr, DecidableEq

/-- The deletion loop over the file's entries, enumerated from 1: each
entry issues one request, and every 50th entry checkpoints the log. -/
def deletionLoop (products : List DeleteItem) : DeletionRunTrace :=
  let folded := products.foldl
    (fun (acc : List String × Nat × Nat) p =>
      let idx := acc.2.2 + 1
      (acc.1 ++ [p.id], acc.2.1 + (if idx % 50 = 0 then 1 else 0), idx))
    ([], 0, 0)
  { requests := folded.1, logWrites := folded.2.1 + 1 }

/-- `delete_products_from_file`: a missing or malformed input file returns
before the prompt; any confirmation other than the exact token `"DELETE"`
prints "Deletion cancelled" and returns before any request or log write;
only the exact token reaches the deletion loop. -/
def deleteProductsFromFile (file : Option (List DeleteItem)) (confirmation : String) :
    DeletionRunTrace :=
  match file with
  | none => { requests := [], logWrites := 0 }
  | some products =>
    if confirmation ≠ "DELETE" then { requests := [], logWrites := 0 }
    else deletionLoop products

end ShopifyBulk.DupDelete

namespace ShopifyBulk.BulkUpload

/-! ## Lemmas about the pipeline -/

/-- The decision fold, characterised: updates are the products found in the
store whose remote lookup hits (with that id), creates are the rest, both
in input order. -/
lemma classify_foldl_eq (lookup : String → Option String) (ks : List String)
    (ps : List ProductRecord) (acc : List (String × ProductRecord) × List ProductRecord) :
    ps.foldl (classifyStep lookup ks) acc =
      (acc.1 ++ ps.filterMap (fun p =>
          if p.sku ∈ ks then (lookup p.sku).map (fun sid => (sid, p)) else none),
       acc.2 ++ ps.filter (fun p => !(decide (p.sku ∈ ks)) || (lookup p.sku).isNone)) := by
  induction ps generalizing acc with
  | nil => simp
  | cons p ps ih =>
    rw [List.foldl_cons, ih]
    simp only [List.filterMap_cons, List.filter_cons, classifyStep]
    by_cases hks : p.sku ∈ ks
    · rw [if_pos hks, if_pos hks]
      cases hl : lookup p.sku with
      | none => simp [hl, hks]
      | some sid => simp [hl, hks]
    · rw [if_neg hks, if_neg hks]
      simp [hks]

lemma classifyProducts_eq (lookup : String → Option String) (ks : List String)
    (ps : List ProductRecord) :
    classifyProducts lookup ks ps =
      (ps.filterMap (fun p =>
          if p.sku ∈ ks then (lookup p.sku).map (fun sid => (sid, p)) else none),
       ps.filter (fun p => !(decide (p.sku ∈ ks)) || (lookup p.sku).isNone)) := by
  rw [classifyProducts, classify_foldl_eq]
  simp

/-- Membership in the updates produced by the decision phase. -/
lemma mem_updates_iff (lookup : String → Option String) (ks : List String)
    (ps : List ProductRecord) (x : String) :
    (x ∈ (classifyProducts lookup ks ps).1.map (fun u => u.2.sku)) ↔
      ∃ p ∈ ps, p.sku = x ∧ p.sku ∈ ks ∧ (lookup p.sku).isSome := by
  rw [classifyProducts_eq]
  simp only [List.mem_map, List.mem_filterMap]
  constructor
  · rintro ⟨u, ⟨p, hp, hf⟩, rfl⟩
    by_cases hks : p.sku ∈ ks
    · rw [if_pos hks, Option.map_eq_some'] at hf
      rcases hf with ⟨sid, hl, rfl⟩
      exact ⟨p, hp, rfl, hks, by rw [hl]; rfl⟩
    · rw [if_neg hks] at hf
      exact absurd hf (by simp)
  · rintro ⟨p, hp, rfl, hks, hsome⟩
    rcases Option.isSome_iff_exists.1 hsome with ⟨sid, hl⟩
    exact ⟨(sid, p), ⟨p, hp, by rw [if_pos hks, hl]; rfl⟩, rfl⟩

/-- Membership in the creates produced by the decision phase. -/
lemma mem_creates_iff (lookup : String → Option String) (ks : List String)
    (ps : List ProductRecord) (x : String) :
    (x ∈ (classifyProducts lookup ks ps).2.map (fun p => p.sku)) ↔
      ∃ p ∈ ps, p.sku = x ∧ (p.sku ∉ ks ∨ lookup p.sku = none) := by
  rw [classifyProducts_eq]
  simp only [List.mem_map, List.mem_filter, Bool.or_eq_true, Bool.not_eq_true',
    decide_eq_false_iff_not, Option.isNone_iff_eq_none]
  constructor
  · rintro ⟨p, ⟨hp, hcond⟩, rfl⟩
    exact ⟨p, hp, rfl, hcond⟩
  · rintro ⟨p, hp, rfl, hcond⟩
    exact ⟨p, ⟨hp, hcond⟩, rfl⟩

/-- The scrape-loop invariant: every record of `all_product_data` has its
SKU in `current_jd_skus`, and those SKUs are pairwise distinct. -/
lemma scrape_foldl_invariant (items : List ScrapeItem)
    (hwf : ScrapeWF items) (acc : ScrapeState)
    (hsub : ∀ r ∈ acc.data, r.sku ∈ acc.seen)
    (hnd : (acc.data.map (fun r => r.sku)).Nodup) :
    (∀ r ∈ (items.foldl scrapeStep acc).data, r.sku ∈ (items.foldl scrapeStep acc).seen)
    ∧ ((items.foldl scrapeStep acc).data.map (fun r => r.sku)).Nodup := by
  induction items generalizing acc with
  | nil => exact ⟨hsub, hnd⟩
  | cons it items ih =>
    have hit := hwf it (List.mem_cons_self it items)
    have hwf' : ScrapeWF items := fun j hj => hwf j (List.mem_cons_of_mem it hj)
    rw [List.foldl_cons]
    by_cases hseen : it.plu ∈ acc.seen
    · rw [scrapeStep, if_pos hseen]
      exact ih hwf' acc hsub hnd
    · rw [scrapeStep, if_neg hseen]
      simp only [hit.1, ne_eq, not_false_iff, if_pos]
      cases hres : it.result with
      | none =>
        exact ih hwf' ⟨it.plu :: acc.seen, acc.data⟩
          (fun r hr => List.mem_cons_of_mem _ (hsub r hr)) hnd
      | some rec =>
        have hsku : rec.sku = it.plu := hit.2 rec hres
        refine ih hwf' ⟨it.plu :: acc.seen, acc.data ++ [rec]⟩ ?_ ?_
        · intro r hr
          rcases List.mem_append.1 hr with h | h
          · exact List.mem_cons_of_mem _ (hsub r h)
          · rcases List.mem_singleton.1 h with rfl
            rw [hsku]; exact List.mem_cons_self _ _
        · rw [List.map_append, List.map_singleton, List.nodup_append]
          refine ⟨hnd, List.nodup_singleton _, ?_⟩
          intro s hs
          simp only [List.mem_singleton]
          rcases List.mem_map.1 hs with ⟨r, hr, rfl⟩
          intro h
          exact hseen (by rw [← hsku, ← h]; exact hsub r hr)

/-- For a well-formed scrape, the SKUs of `all_product_data` lie in
`current_jd_skus` and are distinct. -/
lemma scrape_data_sound (items : List ScrapeItem) (hwf : ScrapeWF items) :
    (∀ r ∈ (scrapeItems items).data, r.sku ∈ (scrapeItems items).seen)
    ∧ ((scrapeItems items).data.map (fun r => r.sku)).Nodup := by
  exact scrape_foldl_invariant items hwf ⟨[], []⟩ (by intro r hr; cases hr) List.nodup_nil

/-! ### The identity-store rewrite -/

lemma keys_upsert (k : String) (v : SkuMeta) (m : IdentityStore) (x : String) :
    x ∈ (upsert k v m).map Prod.fst ↔ x = k ∨ x ∈ m.map Prod.fst := by
  induction m with
  | nil => simp [upsert]
  | cons e m ih =>
    rw [upsert]
    by_cases h : e.1 = k
    · subst h
      simp [or_assoc]
    · rw [if_neg h]
      simp only [List.map_cons, List.mem_cons, ih]
      tauto

lemma keys_foldl_upsert (data : List ProductRecord) (m : IdentityStore) (x : String) :
    x ∈ ((data.foldl (fun m p => upsert p.sku ⟨p.name, "null"⟩ m) m).map Prod.fst) ↔
      x ∈ m.map Prod.fst ∨ x ∈ data.map (fun p => p.sku) := by
  induction data generalizing m with
  | nil => simp
  | cons p data ih =>
    rw [List.foldl_cons, ih, keys_upsert]
    simp only [List.map_cons, List.mem_cons]
    tauto

/-- The keys of the rewritten store are exactly the SKUs of
`all_product_data`. -/
lemma keys_latestProcessedSkus (data : List ProductRecord) (x : String) :
    x ∈ (latestProcessedSkus data).map Prod.fst ↔ x ∈ data.map (fun p => p.sku) := by
  rw [latestProcessedSkus, keys_foldl_upsert]
  simp

lemma lookup_upsert_self (k : String) (v : SkuMeta) (m : IdentityStore) :
    lookupStore k (upsert k v m) = some v := by
  induction m with
  | nil => simp [upsert, lookupStore]
  | cons e m ih =>
    rw [upsert]
    by_cases h : e.1 = k
    · rw [if_pos h, lookupStore, if_pos rfl]
    · rw [if_neg h, lookupStore, if_neg h]
      exact ih

lemma lookup_upsert_ne (k x : String) (hx : x ≠ k) (v : SkuMeta) (m : IdentityStore) :
    lookupStore x (upsert k v m) = lookupStore x m := by
  induction m with
  | nil =>
    simp only [upsert, lookupStore]
    rw [if_neg (fun hh => hx (Eq.symm hh))]
  | cons e m ih =>
    obtain ⟨ek, ev⟩ := e
    rw [upsert]
    by_cases h : ek = k
    · subst h
      simp only [lookupStore]
      rw [if_neg (fun hh => hx (Eq.symm hh)), if_neg (fun hh => hx (Eq.symm hh))]
    · rw [if_neg h]
      simp only [lookupStore]
      by_cases hxe : ek = x
      · rw [if_pos hxe, if_pos hxe]
      · rw [if_neg hxe, if_neg hxe]
        exact ih

lemma lookup_foldl_upsert_not_mem (data : List ProductRecord) (m : IdentityStore)
    (x : String) (hx : x ∉ data.map (fun p => p.sku)) :
    lookupStore x (data.foldl (fun m p => upsert p.sku ⟨p.name, "null"⟩ m) m) =
      lookupStore x m := by
  induction data generalizing m with
  | nil => rfl
  | cons p data ih =>
    simp only [List.map_cons, List.mem_cons, not_or] at hx
    rw [List.foldl_cons, ih _ hx.2, lookup_upsert_ne _ _ hx.1]

lemma lookup_foldl_upsert_mem (data : List ProductRecord)
    (hnd : (data.map (fun p => p.sku)).Nodup) (p : ProductRecord) (hp : p ∈ data)
    (m : IdentityStore) :
    lookupStore p.sku (data.foldl (fun m p => upsert p.sku ⟨p.name, "null"⟩ m) m) =
      some ⟨p.name, "null"⟩ := by
  induction data generalizing m with
  | nil => cases hp
  | cons q data ih =>
    simp only [List.map_cons, List.nodup_cons] at hnd
    rcases List.mem_cons.1 hp with rfl | hp'
    · rw [List.foldl_cons, lookup_foldl_upsert_not_mem data _ _ hnd.1, lookup_upsert_self]
    · rw [List.foldl_cons]
      exact ih hnd.2 hp' _

/-- In the rewritten store every record of `all_product_data` (distinct
SKUs) is mapped to its name and the constant `"null"` timestamp. -/
lemma lookup_latestProcessedSkus (data : List ProductRecord)
    (hnd : (data.map (fun p => p.sku)).Nodup) (p : ProductRecord) (hp : p ∈ data) :
    lookupStore p.sku (latestProcessedSkus data) = some ⟨p.name, "null"⟩ := by
  rw [latestProcessedSkus]
  exact lookup_foldl_upsert_mem data hnd p hp []

/-! ### The write phase -/

lemma foldl_append_singleton {α β : Type} (f : α → β) (l : List α) (init : List β) :
    l.foldl (fun ls a => ls ++ [f a]) init = init ++ l.map f := by
  induction l generalizing init with
  | nil => simp
  | cons a l ih => simp [ih]

/-- The JSONL file is the update lines followed by the create lines, each in
input order. -/
lemma writeJsonl_eq (us : List UpdateInput) (cs : List ProductRecord) :
    writeJsonl us cs =
      us.map JsonlLine.update ++ cs.map (fun p => JsonlLine.create (encodeCreateInput p)) := by
  rw [writeJsonl, foldl_append_singleton, foldl_append_singleton]
  simp

/-! ### The deletion loop -/

lemma deleteStep_sum (lookup : String → Option String) (resp : String → DeleteResponse)
    (acc : Nat × Nat) (sku : String) :
    (deleteStep lookup resp acc sku).1 + (deleteStep lookup resp acc sku).2 =
      acc.1 + acc.2 + 1 := by
  cases hl : lookup sku with
  | none =>
    simp only [deleteStep, hl]
    omega
  | some pid =>
    cases hr : resp pid <;>
      · simp only [deleteStep, hl, hr]
        omega

lemma deleteRun_foldl_length (lookup : String → Option String)
    (resp : String → DeleteResponse) (skus : List String) (acc : Nat × Nat) :
    (skus.foldl (deleteStep lookup resp) acc).1 +
      (skus.foldl (deleteStep lookup resp) acc).2 = acc.1 + acc.2 + skus.length := by
  induction skus generalizing acc with
  | nil => rfl
  | cons sku skus ih =>
    rw [List.foldl_cons, ih, deleteStep_sum]
    simp only [List.length_cons]
    omega

/-- Every SKU of the deletion list is processed: the loop never aborts, and
each SKU is counted either successful or failed. -/
lemma deleteRun_length (lookup : String → Option String)
    (resp : String → DeleteResponse) (skus : List String) :
    (deleteRun lookup resp skus).1 + (deleteRun lookup resp skus).2 = skus.length := by
  have := deleteRun_foldl_length lookup resp skus (0, 0)
  simpa [deleteRun] using this

/-! ### The reconciliation tail -/

lemma mem_deletions_iff (lookup : String → Option String) (store : IdentityStore)
    (items : List ScrapeItem) (x : String) :
    x ∈ (runReconcile lookup store items).deletions ↔
      x ∈ store.map Prod.fst ∧ x ∉ (runReconcile lookup store items).currentIds := by
  simp [runReconcile, List.mem_filter]

lemma mem_storeAfterDeletions_iff (lookup : String → Option String) (store : IdentityStore)
    (items : List ScrapeItem) (x : String) :
    x ∈ (runReconcile lookup store items).storeAfterDeletions ↔
      x ∈ store.map Prod.fst ∧ x ∈ (scrapeItems items).seen := by
  have h1 : x ∈ (runReconcile lookup store items).storeAfterDeletions ↔
      x ∈ store.map Prod.fst ∧ x ∉ (runReconcile lookup store items).deletions := by
    simp [runReconcile, List.mem_filter]
  rw [h1, mem_deletions_iff lookup store items x,
    show (runReconcile lookup store items).currentIds = (scrapeItems items).seen from rfl]
  tauto

end ShopifyBulk.BulkUpload

namespace ShopifyBulk.BulkUpload

/-! ## Lemmas about the admission gate -/

/-- A response whose check comes back `none` or with a terminal-status job
opens the gate at once: zero sleep-poll cycles. -/
lemma wait_head_free (r : QueryResponse) (rest : List QueryResponse)
    (hr : checkBulkOperationStatus r = none ∨
      ∃ j, checkBulkOperationStatus r = some j ∧ isTerminalStatus j.status = true) :
    waitForBulkOperationCompletion (r :: rest) = some (0, rest) := by
  rcases hr with h | ⟨j, hj, hterm⟩
  · simp [waitForBulkOperationCompletion, h]
  · simp [waitForBulkOperationCompletion, hj, hterm]

/-- A remote that reports an active job `k` times and then a free slot
makes the gate perform exactly `k` sleep-poll cycles. -/
lemma wait_replicate_active (k : Nat) (info : BulkJobInfo)
    (hact : info.status = "RUNNING" ∨ info.status = "CREATED")
    (r : QueryResponse)
    (hr : checkBulkOperationStatus r = none ∨
      ∃ j, checkBulkOperationStatus r = some j ∧ isTerminalStatus j.status = true) :
    waitForBulkOperationCompletion
      (List.replicate k (QueryResponse.ok (some info)) ++ [r]) = some (k, []) := by
  induction k with
  | zero =>
    rw [List.replicate, List.nil_append]
    exact wait_head_free r [] hr
  | succ k ih =>
    rw [List.replicate_succ, List.cons_append]
    have hterm : isTerminalStatus info.status = false := by
      rcases hact with h | h <;> rw [h] <;> rfl
    simp only [waitForBulkOperationCompletion, checkBulkOperationStatus, hterm,
      Bool.false_eq_true, if_false, ih]

end ShopifyBulk.BulkUpload

namespace ShopifyBulk.DupFinder

/-! ## Lemmas about the duplicate finder's sort and selection -/

/-- `earlierEq a b`: `a`'s creation timestamp does not exceed `b`'s (the
ascending order of `sorted(..., key=created_at)`). -/
def earlierEq (a b : CatalogProduct) : Prop :=
  lexLt b.createdAt.data a.createdAt.data = false

lemma insertByCreated_perm (p : CatalogProduct) (l : List CatalogProduct) :
    List.Perm (insertByCreated p l) (p :: l) := by
  induction l with
  | nil => exact List.Perm.refl _
  | cons q qs ih =>
    rw [insertByCreated]
    by_cases h : lexLt q.createdAt.data p.createdAt.data = true
    · rw [if_pos h]
      exact (ih.cons q).trans (List.Perm.swap p q qs)
    · rw [if_neg h]

lemma sortByCreated_perm (l : List CatalogProduct) : List.Perm (sortByCreated l) l := by
  induction l with
  | nil => exact List.Perm.refl _
  | cons p ps ih =>
    rw [sortByCreated]
    exact (insertByCreated_perm p (sortByCreated ps)).trans (ih.cons p)

lemma sorted_insertByCreated (p : CatalogProduct) (l : List CatalogProduct)
    (hl : l.Pairwise earlierEq) : (insertByCreated p l).Pairwise earlierEq := by
  induction l with
  | nil => simp [insertByCreated, earlierEq]
  | cons q qs ih =>
    rcases List.pairwise_cons.1 hl with ⟨hq, hqs⟩
    rw [insertByCreated]
    by_cases h : lexLt q.createdAt.data p.createdAt.data = true
    · rw [if_pos h]
      refine List.pairwise_cons.2 ⟨?_, ih hqs⟩
      intro x hx
      rcases List.mem_cons.1 ((insertByCreated_perm p qs).mem_iff.1 hx) with rfl | hxq
      · exact lexLt_asymm _ _ h
      · exact hq x hxq
    · rw [if_neg h]
      refine List.pairwise_cons.2 ⟨?_, hl⟩
      intro x hx
      have hqp : earlierEq p q := by
        rw [earlierEq]
        cases hb : lexLt q.createdAt.data p.createdAt.data with
        | false => rfl
        | true => exact absurd hb h
      rcases List.mem_cons.1 hx with rfl | hxq
      · exact hqp
      · rw [earlierEq]
        cases hb : lexLt x.createdAt.data p.createdAt.data with
        | false => rfl
        | true =>
          have hxq' := hq x hxq
          rw [earlierEq] at hqp hxq'
          exact absurd (lexLt_lt_of_lt_of_not_lt _ _ _ hb hqp) (by rw [hxq']; decide)

lemma sorted_sortByCreated (l : List CatalogProduct) :
    (sortByCreated l).Pairwise earlierEq := by
  induction l with
  | nil => exact List.Pairwise.nil
  | cons p ps ih => exact sorted_insertByCreated p (sortByCreated ps) ih

/-- In a list sorted ascending by creation time, every member is no later
than the last. -/
lemma le_getLast_of_pairwise : ∀ (l : List CatalogProduct),
    l.Pairwise earlierEq → ∀ (hne : l ≠ []) (e : CatalogProduct), e ∈ l →
      earlierEq e (l.getLast hne) := by
  intro l
  induction l with
  | nil => intro _ hne; exact absurd rfl hne
  | cons a t ih =>
    intro hl hne e he
    cases t with
    | nil =>
      rcases List.mem_singleton.1 he with rfl
      rw [List.getLast_singleton, earlierEq]
      exact lexLt_irrefl _
    | cons b t' =>
      rw [List.getLast_cons (List.cons_ne_nil b t')]
      rcases List.pairwise_cons.1 hl with ⟨ha, ht⟩
      rcases List.mem_cons.1 he with rfl | he'
      · exact ha _ (List.getLast_mem (List.cons_ne_nil b t'))
      · exact ih ht (List.cons_ne_nil b t') e he'

end ShopifyBulk.DupFinder

namespace ShopifyBulk

open ShopifyBulk.BulkUpload

/-! ## Concrete inputs used by witnesses and counterexamples -/

/-- A stored metadata value from a previous run. -/
def exMeta : SkuMeta := ⟨"previously seen product", "null"⟩

/-- A scraped product record with the given SKU. -/
def exRecord (sku : String) : ProductRecord :=
  { sku := sku
    name := "Adidas Tee " ++ sku
    price := "100"
    previousPrice := "150"
    originalCost := "60"
    description := "a tee"
    images := ["https://cdn.example.com/img1.jpg?v=3"]
    variants := [⟨"M", "19371982", 1⟩]
    gender := "Women"
    productType := "Clothing"
    brand := "adidas" }

/-- The spec's identity store `{A, B, C}`. -/
def exStoreABC : IdentityStore := [("A", exMeta), ("B", exMeta), ("C", exMeta)]

/-- The spec's scrape `{B, C, D}`, every item successful. -/
def exItemsBCD : List ScrapeItem :=
  [⟨"B", some (exRecord "B")⟩, ⟨"C", some (exRecord "C")⟩, ⟨"D", some (exRecord "D")⟩]

/-- A remote on which every SKU lookup hits. -/
def exLookup : String → Option String := fun s => some ("gid://shopify/Product/" ++ s)

/-- A remote on which every SKU lookup misses. -/
def noLookup : String → Option String := fun _ => none

/-- A scrape consisting of one listing item whose product page failed. -/
def exFailedItems : List ScrapeItem := [⟨"A", none⟩]

/-! ## The claims -/

/-- C1 (confirmed).  Deletion-by-absence: in every run the identifiers
selected for deletion are exactly the keys of the loaded identity store
minus `current_jd_skus`, the identifiers seen in the current scrape; each
is then processed by per-identifier lookup-then-delete, where every
outcome — lookup miss, request error, GraphQL/user error or success —
continues the loop, so all selected identifiers are processed and counted.
In particular, identity store `{A, B, C}` with scrape `{B, C, D}` yields
deletions `{A}`. -/
theorem claim1_deletion_by_absence :
    (∀ (lookup : String → Option String) (store : IdentityStore)
        (items : List ScrapeItem) (x : String),
      x ∈ (runReconcile lookup store items).deletions ↔
        x ∈ store.map Prod.fst ∧ x ∉ (runReconcile lookup store items).currentIds)
    ∧ (∀ (lookup : String → Option String) (resp : String → DeleteResponse)
        (skus : List String),
      (deleteRun lookup resp skus).1 + (deleteRun lookup resp skus).2 = skus.length)
    ∧ (runReconcile exLookup exStoreABC exItemsBCD).deletions = ["A"] := by
  exact ⟨mem_deletions_iff, deleteRun_length, by decide⟩

/-- C2, counterexample.  The claim "the persisted identity store contains
exactly the identifiers in `currentIds`" fails on the code: a listing item
whose product page fails to process has its identifier in
`current_jd_skus` (so it is spared deletion) but contributes no record to
`all_product_data`, and the rewritten store is built from
`all_product_data` only — here identifier `A` is seen but not
persisted. -/
theorem claim2_cex_failed_item_dropped :
    ¬ (∀ x : String,
        x ∈ (runReconcile noLookup [] exFailedItems).persisted.map Prod.fst ↔
          x ∈ (runReconcile noLookup [] exFailedItems).currentIds) := by
  intro h
  exact absurd ((h "A").2 (by decide)) (by decide)

/-- C2 (corrected).  Identity-store rewrite: at the end of every run the
persisted store contains exactly the identifiers of the records
successfully scraped in the current run (identifiers seen in the scrape
whose processing failed are dropped), each mapped to the record's display
name and the fresh `processed_at` value the script writes
(`json.dumps(None)`, the string `"null"`). -/
theorem claim2_identity_store_rewrite (lookup : String → Option String)
    (store : IdentityStore) (items : List ScrapeItem) (hwf : ScrapeWF items) :
    (∀ x, x ∈ (runReconcile lookup store items).persisted.map Prod.fst ↔
        x ∈ (runReconcile lookup store items).scrapedData.map (fun p => p.sku))
    ∧ ∀ p ∈ (runReconcile lookup store items).scrapedData,
        lookupStore p.sku (runReconcile lookup store items).persisted =
          some ⟨p.name, "null"⟩ := by
  have hpe : (runReconcile lookup store items).persisted =
      latestProcessedSkus (scrapeItems items).data := rfl
  have hsd : (runReconcile lookup store items).scrapedData = (scrapeItems items).data := rfl
  rw [hpe, hsd]
  exact ⟨fun x => keys_latestProcessedSkus _ x,
    fun p hp => lookup_latestProcessedSkus _ (scrape_data_sound items hwf).2 p hp⟩

theorem claim2_identity_store_rewrite_witness :
    (∀ x, x ∈ (runReconcile exLookup exStoreABC exItemsBCD).persisted.map Prod.fst ↔
        x ∈ (runReconcile exLookup exStoreABC exItemsBCD).scrapedData.map (fun p => p.sku))
    ∧ ∀ p ∈ (runReconcile exLookup exStoreABC exItemsBCD).scrapedData,
        lookupStore p.sku (runReconcile exLookup exStoreABC exItemsBCD).persisted =
          some ⟨p.name, "null"⟩ :=
  claim2_identity_store_rewrite exLookup exStoreABC exItemsBCD (by decide)

/-- C3 (confirmed).  Create/Update classification with NotFound fallback:
the updates of `generate_product_jsonl` are exactly the input records
whose SKU is a key of the store and whose remote lookup hits (paired with
the returned id, in input order); every record whose SKU is not a key, and
every record whose lookup misses, lands among the creates. -/
theorem claim3_create_update_classification :
    ∀ (lookup : String → Option String) (ks : List String) (ps : List ProductRecord),
      (classifyProducts lookup ks ps).1 = ps.filterMap (fun p =>
          if p.sku ∈ ks then (lookup p.sku).map (fun sid => (sid, p)) else none)
      ∧ (classifyProducts lookup ks ps).2 = ps.filter (fun p =>
          !(decide (p.sku ∈ ks)) || (lookup p.sku).isNone)
      ∧ (∀ p ∈ ps, p.sku ∉ ks → p ∈ (classifyProducts lookup ks ps).2)
      ∧ (∀ p ∈ ps, ∀ sid, p.sku ∈ ks → lookup p.sku = some sid →
          (sid, p) ∈ (classifyProducts lookup ks ps).1)
      ∧ (∀ p ∈ ps, p.sku ∈ ks → lookup p.sku = none →
          p ∈ (classifyProducts lookup ks ps).2) := by
  intro lookup ks ps
  have h := classifyProducts_eq lookup ks ps
  refine ⟨by rw [h], by rw [h], ?_, ?_, ?_⟩
  · intro p hp hks
    rw [h]
    exact List.mem_filter.2 ⟨hp, by simp [hks]⟩
  · intro p hp sid hks hl
    rw [h]
    exact List.mem_filterMap.2 ⟨p, hp, by rw [if_pos hks, hl]; rfl⟩
  · intro p hp hks hl
    rw [h]
    exact List.mem_filter.2 ⟨hp, by simp [hl]⟩

end ShopifyBulk

namespace ShopifyBulk.BulkUpload

/-- The external identifiers of the update decisions of a run. -/
def updateSkus (r : RunResult) : List String := r.updates.map (fun u => u.2.sku)

/-- The external identifiers of the create decisions of a run. -/
def createSkus (r : RunResult) : List String := r.creates.map (fun p => p.sku)

/-- The external identifiers of the successfully scraped records of a run. -/
def scrapedSkus (r : RunResult) : List String := r.scrapedData.map (fun p => p.sku)

lemma mem_updateSkus_iff (lookup : String → Option String) (store : IdentityStore)
    (items : List ScrapeItem) (x : String) :
    x ∈ updateSkus (runReconcile lookup store items) ↔
      ∃ p ∈ (runReconcile lookup store items).scrapedData, p.sku = x ∧
        p.sku ∈ (runReconcile lookup store items).storeAfterDeletions ∧
        (lookup p.sku).isSome := by
  have hupd : (runReconcile lookup store items).updates =
      (classifyProducts lookup (runReconcile lookup store items).storeAfterDeletions
        (runReconcile lookup store items).scrapedData).1 := rfl
  rw [updateSkus, hupd]
  exact mem_updates_iff lookup _ _ x

lemma mem_createSkus_iff (lookup : String → Option String) (store : IdentityStore)
    (items : List ScrapeItem) (x : String) :
    x ∈ createSkus (runReconcile lookup store items) ↔
      ∃ p ∈ (runReconcile lookup store items).scrapedData, p.sku = x ∧
        (p.sku ∉ (runReconcile lookup store items).storeAfterDeletions ∨
          lookup p.sku = none) := by
  have hcre : (runReconcile lookup store items).creates =
      (classifyProducts lookup (runReconcile lookup store items).storeAfterDeletions
        (runReconcile lookup store items).scrapedData).2 := rfl
  rw [createSkus, hcre]
  exact mem_creates_iff lookup _ _ x

end ShopifyBulk.BulkUpload

namespace ShopifyBulk

open ShopifyBulk.BulkUpload

/-- C4, counterexample.  The partition claim's coverage direction fails on
the code as stated: a listing item whose processing fails has its
identifier in `currentIds` but yields neither a create, an update, nor a
deletion, so `creates ∪ updates ∪ deletions` does not cover
`currentIds ∪ (previousIds − currentIds)`. -/
theorem claim4_cex_partition_coverage :
    ¬ (∀ x : String,
        (x ∈ updateSkus (runReconcile noLookup [] exFailedItems)
          ∨ x ∈ createSkus (runReconcile noLookup [] exFailedItems)
          ∨ x ∈ (runReconcile noLookup [] exFailedItems).deletions) ↔
        (x ∈ (runReconcile noLookup [] exFailedItems).currentIds
          ∨ (x ∈ ([] : IdentityStore).map Prod.fst
            ∧ x ∉ (runReconcile noLookup [] exFailedItems).currentIds))) := by
  intro h
  exact absurd ((h "A").2 (Or.inl (by decide))) (by decide)

/-- C4 (corrected).  Partition property: for every well-formed scrape and
identity store, the identifier sets of the creates, the updates and the
deletions are pairwise disjoint; their union is the set of successfully
scraped identifiers together with `previousIds − currentIds` (identifiers
seen in the scrape but not successfully processed are classified nowhere);
every successfully scraped record is classified as exactly one of create
or update; and every deletion identifier lies outside `currentIds`. -/
theorem claim4_partition_property (lookup : String → Option String)
    (store : IdentityStore) (items : List ScrapeItem) (hwf : ScrapeWF items) :
    (∀ x : String,
      ¬(x ∈ updateSkus (runReconcile lookup store items)
          ∧ x ∈ createSkus (runReconcile lookup store items))
      ∧ ¬(x ∈ updateSkus (runReconcile lookup store items)
          ∧ x ∈ (runReconcile lookup store items).deletions)
      ∧ ¬(x ∈ createSkus (runReconcile lookup store items)
          ∧ x ∈ (runReconcile lookup store items).deletions))
    ∧ (∀ x : String,
      (x ∈ updateSkus (runReconcile lookup store items)
        ∨ x ∈ createSkus (runReconcile lookup store items)
        ∨ x ∈ (runReconcile lookup store items).deletions) ↔
      (x ∈ scrapedSkus (runReconcile lookup store items)
        ∨ (x ∈ store.map Prod.fst
          ∧ x ∉ (runReconcile lookup store items).currentIds)))
    ∧ (∀ p ∈ (runReconcile lookup store items).scrapedData,
      (p.sku ∈ updateSkus (runReconcile lookup store items)
          ∧ p.sku ∉ createSkus (runReconcile lookup store items))
      ∨ (p.sku ∈ createSkus (runReconcile lookup store items)
          ∧ p.sku ∉ updateSkus (runReconcile lookup store items)))
    ∧ (∀ x ∈ (runReconcile lookup store items).deletions,
        x ∉ (runReconcile lookup store items).currentIds) := by
  have hU := mem_updateSkus_iff lookup store items
  have hC := mem_createSkus_iff lookup store items
  have hD := mem_deletions_iff lookup store items
  have hKS := mem_storeAfterDeletions_iff lookup store items
  have hcur : (runReconcile lookup store items).currentIds = (scrapeItems items).seen := rfl
  have hsd : (runReconcile lookup store items).scrapedData = (scrapeItems items).data := rfl
  have hdata : ∀ p ∈ (runReconcile lookup store items).scrapedData,
      p.sku ∈ (scrapeItems items).seen := by
    rw [hsd]; exact (scrape_data_sound items hwf).1
  have hUC : ∀ x, ¬(x ∈ updateSkus (runReconcile lookup store items)
      ∧ x ∈ createSkus (runReconcile lookup store items)) := by
    rintro x ⟨hxu, hxc⟩
    rcases (hU x).1 hxu with ⟨p, hp, hpx, hks, hsome⟩
    rcases (hC x).1 hxc with ⟨q, hq, hqx, hcond⟩
    rw [hqx, ← hpx] at hcond
    rcases hcond with hcond | hcond
    · exact hcond hks
    · rw [hcond] at hsome; cases hsome
  have hUD : ∀ x, ¬(x ∈ updateSkus (runReconcile lookup store items)
      ∧ x ∈ (runReconcile lookup store items).deletions) := by
    rintro x ⟨hxu, hxd⟩
    rcases (hU x).1 hxu with ⟨p, hp, hpx, hks, _⟩
    rcases (hD x).1 hxd with ⟨_, hnc⟩
    rw [hpx] at hks
    exact hnc (by rw [hcur]; exact ((hKS x).1 hks).2)
  have hCD : ∀ x, ¬(x ∈ createSkus (runReconcile lookup store items)
      ∧ x ∈ (runReconcile lookup store items).deletions) := by
    rintro x ⟨hxc, hxd⟩
    rcases (hC x).1 hxc with ⟨p, hp, hpx, _⟩
    rcases (hD x).1 hxd with ⟨_, hnc⟩
    exact hnc (by rw [hcur, ← hpx]; exact hdata p hp)
  refine ⟨fun x => ⟨hUC x, hUD x, hCD x⟩, ?_, ?_, ?_⟩
  · intro x
    constructor
    · rintro (hx | hx | hx)
      · rcases (hU x).1 hx with ⟨p, hp, hpx, _, _⟩
        exact Or.inl (List.mem_map.2 ⟨p, hp, hpx⟩)
      · rcases (hC x).1 hx with ⟨p, hp, hpx, _⟩
        exact Or.inl (List.mem_map.2 ⟨p, hp, hpx⟩)
      · exact Or.inr ((hD x).1 hx)
    · rintro (hx | hx)
      · rcases List.mem_map.1 hx with ⟨p, hp, hpx⟩
        by_cases hks : p.sku ∈ (runReconcile lookup store items).storeAfterDeletions
        · cases hsome : lookup p.sku with
          | some sid =>
            exact Or.inl ((hU x).2 ⟨p, hp, hpx, hks, by rw [hsome]; rfl⟩)
          | none =>
            exact Or.inr (Or.inl ((hC x).2 ⟨p, hp, hpx, Or.inr hsome⟩))
        · exact Or.inr (Or.inl ((hC x).2 ⟨p, hp, hpx, Or.inl hks⟩))
      · exact Or.inr (Or.inr ((hD x).2 hx))
  · intro p hp
    by_cases hks : p.sku ∈ (runReconcile lookup store items).storeAfterDeletions
    · cases hsome : lookup p.sku with
      | some sid =>
        have hu : p.sku ∈ updateSkus (runReconcile lookup store items) :=
          (hU p.sku).2 ⟨p, hp, rfl, hks, by rw [hsome]; rfl⟩
        exact Or.inl ⟨hu, fun hc => hUC p.sku ⟨hu, hc⟩⟩
      | none =>
        have hc : p.sku ∈ createSkus (runReconcile lookup store items) :=
          (hC p.sku).2 ⟨p, hp, rfl, Or.inr hsome⟩
        exact Or.inr ⟨hc, fun hu => hUC p.sku ⟨hu, hc⟩⟩
    · have hc : p.sku ∈ createSkus (runReconcile lookup store items) :=
        (hC p.sku).2 ⟨p, hp, rfl, Or.inl hks⟩
      exact Or.inr ⟨hc, fun hu => hUC p.sku ⟨hu, hc⟩⟩
  · intro x hx
    exact ((hD x).1 hx).2

theorem claim4_partition_property_witness :
    (∀ x : String,
      ¬(x ∈ updateSkus (runReconcile exLookup exStoreABC exItemsBCD)
          ∧ x ∈ createSkus (runReconcile exLookup exStoreABC exItemsBCD))
      ∧ ¬(x ∈ updateSkus (runReconcile exLookup exStoreABC exItemsBCD)
          ∧ x ∈ (runReconcile exLookup exStoreABC exItemsBCD).deletions)
      ∧ ¬(x ∈ createSkus (runReconcile exLookup exStoreABC exItemsBCD)
          ∧ x ∈ (runReconcile exLookup exStoreABC exItemsBCD).deletions))
    ∧ (∀ x : String,
      (x ∈ updateSkus (runReconcile exLookup exStoreABC exItemsBCD)
        ∨ x ∈ createSkus (runReconcile exLookup exStoreABC exItemsBCD)
        ∨ x ∈ (runReconcile exLookup exStoreABC exItemsBCD).deletions) ↔
      (x ∈ scrapedSkus (runReconcile exLookup exStoreABC exItemsBCD)
        ∨ (x ∈ exStoreABC.map Prod.fst
          ∧ x ∉ (runReconcile exLookup exStoreABC exItemsBCD).currentIds)))
    ∧ (∀ p ∈ (runReconcile exLookup exStoreABC exItemsBCD).scrapedData,
      (p.sku ∈ updateSkus (runReconcile exLookup exStoreABC exItemsBCD)
          ∧ p.sku ∉ createSkus (runReconcile exLookup exStoreABC exItemsBCD))
      ∨ (p.sku ∈ createSkus (runReconcile exLookup exStoreABC exItemsBCD)
          ∧ p.sku ∉ updateSkus (runReconcile exLookup exStoreABC exItemsBCD)))
    ∧ (∀ x ∈ (runReconcile exLookup exStoreABC exItemsBCD).deletions,
        x ∉ (runReconcile exLookup exStoreABC exItemsBCD).currentIds) :=
  claim4_partition_property exLookup exStoreABC exItemsBCD (by decide)

end ShopifyBulk

namespace ShopifyBulk

open ShopifyBulk.BulkUpload

/-- C5 (confirmed).  Job Admission Gate: a status query that reports no
current job or a terminal-status job opens the gate with zero sleep-poll
cycles; a remote that reports an active (`RUNNING` or `CREATED`) job `k`
times — for every `k`, there is no retry cap — and then none or a terminal
job makes `awaitSlot` perform exactly `k` sleep-poll cycles before
returning, after which the bulk-job submission is issued exactly once. -/
theorem claim5_admission_gate (k : Nat) (info : BulkJobInfo)
    (hact : info.status = "RUNNING" ∨ info.status = "CREATED")
    (r : QueryResponse)
    (hr : checkBulkOperationStatus r = none ∨
      ∃ j, checkBulkOperationStatus r = some j ∧ isTerminalStatus j.status = true) :
    waitForBulkOperationCompletion
        (List.replicate k (QueryResponse.ok (some info)) ++ [r]) = some (k, [])
    ∧ runBulkProductSetWithQueue
        (List.replicate k (QueryResponse.ok (some info)) ++ [r]) = some (k, 1)
    ∧ (∀ rest, waitForBulkOperationCompletion (r :: rest) = some (0, rest)) := by
  have hw := wait_replicate_active k info hact r hr
  exact ⟨hw, by simp [runBulkProductSetWithQueue, hw],
    fun rest => wait_head_free r rest hr⟩

theorem claim5_admission_gate_witness :
    waitForBulkOperationCompletion
        (List.replicate 3 (QueryResponse.ok (some ⟨"gid://shopify/BulkOperation/1", "RUNNING"⟩))
          ++ [QueryResponse.ok (some ⟨"gid://shopify/BulkOperation/1", "COMPLETED"⟩)]) =
      some (3, [])
    ∧ runBulkProductSetWithQueue
        (List.replicate 3 (QueryResponse.ok (some ⟨"gid://shopify/BulkOperation/1", "RUNNING"⟩))
          ++ [QueryResponse.ok (some ⟨"gid://shopify/BulkOperation/1", "COMPLETED"⟩)]) =
      some (3, 1)
    ∧ (∀ rest, waitForBulkOperationCompletion
        (QueryResponse.ok (some ⟨"gid://shopify/BulkOperation/1", "COMPLETED"⟩) :: rest) =
      some (0, rest)) :=
  claim5_admission_gate 3 ⟨"gid://shopify/BulkOperation/1", "RUNNING"⟩ (Or.inl rfl)
    (QueryResponse.ok (some ⟨"gid://shopify/BulkOperation/1", "COMPLETED"⟩))
    (Or.inr ⟨⟨"gid://shopify/BulkOperation/1", "COMPLETED"⟩, rfl, rfl⟩)

/-- C6 (confirmed).  Batch Encoder ordering: for every pair of input
sequences, the emitted JSONL is exactly one line per update followed by
one line per create — all update lines strictly precede all create lines,
each subsequence in its input order — and the pipeline's `jsonlLines` is
this encoding of its classification output. -/
theorem claim6_batch_encoder_ordering :
    (∀ (us : List UpdateInput) (cs : List ProductRecord),
      writeJsonl us cs =
          us.map JsonlLine.update ++ cs.map (fun p => JsonlLine.create (encodeCreateInput p))
      ∧ (writeJsonl us cs).length = us.length + cs.length
      ∧ (writeJsonl us cs).take us.length = us.map JsonlLine.update
      ∧ (writeJsonl us cs).drop us.length =
          cs.map (fun p => JsonlLine.create (encodeCreateInput p)))
    ∧ ∀ (lookup : String → Option String) (store : IdentityStore) (items : List ScrapeItem),
        (runReconcile lookup store items).jsonlLines =
          writeJsonl
            ((runReconcile lookup store items).updates.map (fun u => encodeUpdateInput u.1 u.2))
            (runReconcile lookup store items).creates := by
  refine ⟨fun us cs => ?_, fun _ _ _ => rfl⟩
  have h := writeJsonl_eq us cs
  refine ⟨h, by rw [h]; simp, ?_, ?_⟩
  · rw [h, show us.length = (us.map JsonlLine.update).length by simp, List.take_left]
  · rw [h, show us.length = (us.map JsonlLine.update).length by simp, List.drop_left]

end ShopifyBulk

namespace ShopifyBulk.BulkUpload

/-- The discount condition as the spec states it: both price fields parse
as numbers (under the `x or 0` coercion of the empty string), both values
are strictly positive, and the previous price strictly exceeds the
price. -/
def discountedCond (p : ProductRecord) : Prop :=
  ∃ priceVal prevVal : Dec,
    pyFloatOrZero p.price = some priceVal ∧
    pyFloatOrZero p.previousPrice = some prevVal ∧
    prevVal.posb = true ∧ priceVal.posb = true ∧ priceVal.ltb prevVal = true

lemma isDiscounted_iff (p : ProductRecord) :
    isDiscounted p = true ↔ discountedCond p := by
  rw [isDiscounted, discountedCond]
  cases hpr : pyFloatOrZero p.price with
  | none =>
    simp only [hpr]
    constructor
    · intro h; cases h
    · rintro ⟨pv, _, hpv, _⟩; cases hpv
  | some priceVal =>
    cases hpv : pyFloatOrZero p.previousPrice with
    | none =>
      simp only [hpr, hpv]
      constructor
      · intro h; cases h
      · rintro ⟨_, pr, _, hpr2, _⟩; cases hpr2
    | some prevVal =>
      simp only [hpr, hpv, Bool.and_eq_true]
      constructor
      · rintro ⟨⟨h1, h2⟩, h3⟩
        exact ⟨priceVal, _, rfl, rfl, h1, h2, h3⟩
      · rintro ⟨pv, pr, hpv2, hpr2, h1, h2, h3⟩
        cases hpv2
        cases hpr2
        exact ⟨⟨h1, h2⟩, h3⟩

lemma sku_tag_ne_discounted (s : String) : "sku:" ++ s ≠ "discounted" := by
  intro h
  have h2 : ("sku:" ++ s).data = "discounted".data := by rw [h]
  rw [String.data_append, show "sku:".data = ['s', 'k', 'u', ':'] from rfl,
    show "discounted".data = ['d', 'i', 's', 'c', 'o', 'u', 'n', 't', 'e', 'd'] from rfl] at h2
  simp only [List.cons_append] at h2
  injection h2 with h3 _
  exact absurd h3 (by decide)

/-- Membership of `"discounted"` in the tag list is governed by the
discount computation alone, provided none of the scraped classification
fields happens to be the literal string `"discounted"`. -/
lemma discounted_mem_buildTags (p : ProductRecord)
    (hg : p.gender ≠ "discounted") (ht : p.productType ≠ "discounted")
    (hb : p.brand ≠ "discounted") :
    ("discounted" ∈ buildTags p) ↔ isDiscounted p = true := by
  rw [buildTags]
  constructor
  · intro hmem
    rcases List.mem_append.1 hmem with hbase | hcond
    · exfalso
      rcases List.mem_cons.1 hbase with h | hbase
      · exact absurd h (by decide)
      rcases List.mem_cons.1 hbase with h | hbase
      · exact absurd h (by decide)
      rcases List.mem_cons.1 hbase with h | hbase
      · exact sku_tag_ne_discounted p.sku h.symm
      rcases List.mem_cons.1 hbase with h | hbase
      · exact absurd h (by decide)
      rcases List.mem_cons.1 hbase with h | hbase
      · exact hg h.symm
      rcases List.mem_cons.1 hbase with h | hbase
      · exact ht h.symm
      rcases List.mem_cons.1 hbase with h | hbase
      · exact hb h.symm
      · cases hbase
    · cases hd : isDiscounted p with
      | true => rfl
      | false =>
        rw [hd] at hcond
        simp at hcond
  · intro hd
    exact List.mem_append.2 (Or.inr (by simp [hd]))

end ShopifyBulk.BulkUpload

namespace ShopifyBulk

open ShopifyBulk.BulkUpload

/-- C7 (confirmed).  Discount tag: for every encoded record — update or
create — the tag list contains `"discounted"` exactly when both price and
previous price convert to numbers, both are strictly positive, and the
previous price exceeds the price (the proviso that none of the scraped
gender/type/brand fields is itself the literal `"discounted"` rules out
accidental collisions in the shared tag list). -/
theorem claim7_discount_tag (p : ProductRecord) (rid : String)
    (hg : p.gender ≠ "discounted") (ht : p.productType ≠ "discounted")
    (hb : p.brand ≠ "discounted") :
    ("discounted" ∈ (encodeCreateInput p).tags ↔ discountedCond p)
    ∧ ("discounted" ∈ (encodeUpdateInput rid p).tags ↔ discountedCond p) := by
  have h := (discounted_mem_buildTags p hg ht hb).trans (isDiscounted_iff p)
  exact ⟨h, h⟩

/-- A record priced 100 against a previous price of 150. -/
def exDiscounted : ProductRecord := exRecord "X"

/-- A record with an empty previous price. -/
def exNoPrev : ProductRecord :=
  { exRecord "Y" with previousPrice := "" }

theorem claim7_discount_tag_witness :
    ("discounted" ∈ (encodeCreateInput exDiscounted).tags)
    ∧ ("discounted" ∉ (encodeCreateInput exNoPrev).tags)
    ∧ (("discounted" ∈ (encodeCreateInput exDiscounted).tags ↔ discountedCond exDiscounted)
      ∧ ("discounted" ∈ (encodeUpdateInput "gid://shopify/Product/X" exDiscounted).tags ↔
          discountedCond exDiscounted)) :=
  ⟨by decide, by decide,
    claim7_discount_tag exDiscounted "gid://shopify/Product/X"
      (by decide) (by decide) (by decide)⟩

end ShopifyBulk

namespace ShopifyBulk

open ShopifyBulk.DupFinder ShopifyBulk.DupDelete ShopifyBulk.BulkUpload

/-- C8 (confirmed).  Duplicate deletion-candidate selection: for every
duplicate group (members sharing a declared SKU, group size over one),
sorting by creation timestamp ascending, the last member — a member no
other member's timestamp exceeds — is retained, and the remaining members
become the deletion candidates, each annotated with
`"Duplicate SKU tag: "` followed by the tag value; candidates plus the
retained member are exactly the group's members. -/
theorem claim8_duplicate_candidates (products : List CatalogProduct)
    (sku : String) (group : List CatalogProduct)
    (hmem : (sku, group) ∈ (findDuplicates products).1) :
    1 < group.length ∧
    ∃ retained,
      (sortByCreated group).getLast? = some retained ∧
      retained ∈ group ∧
      (∀ e ∈ group, lexLt retained.createdAt.data e.createdAt.data = false) ∧
      (sortByCreated group).dropLast ++ [retained] = sortByCreated group ∧
      List.Perm ((sortByCreated group).dropLast ++ [retained]) group ∧
      candidatesOfGroup sku group = ((sortByCreated group).dropLast).map (mkDeleteItem sku) ∧
      (candidatesOfGroup sku group).length = group.length - 1 ∧
      ∀ d ∈ candidatesOfGroup sku group, d.reason = "Duplicate SKU tag: " ++ sku := by
  have hlen : 1 < group.length := by
    rw [findDuplicates] at hmem
    have := (List.mem_filter.1 hmem).2
    simpa using this
  have hslen : (sortByCreated group).length = group.length :=
    (sortByCreated_perm group).length_eq
  have hne : sortByCreated group ≠ [] := by
    apply List.ne_nil_of_length_pos
    rw [hslen]
    omega
  refine ⟨hlen, (sortByCreated group).getLast hne, List.getLast?_eq_getLast _ hne, ?_, ?_, ?_, ?_, rfl, ?_, ?_⟩
  · exact (sortByCreated_perm group).mem_iff.1 (List.getLast_mem hne)
  · intro e he
    exact le_getLast_of_pairwise (sortByCreated group) (sorted_sortByCreated group) hne e
      ((sortByCreated_perm group).mem_iff.2 he)
  · exact List.dropLast_append_getLast hne
  · rw [List.dropLast_append_getLast hne]
    exact sortByCreated_perm group
  · rw [candidatesOfGroup, List.length_map, List.length_dropLast, hslen]
  · intro d hd
    rcases List.mem_map.1 hd with ⟨e, _, rfl⟩
    rfl

/-- The spec's example group: two products sharing tag `sku:1`, created
2023-01-01 and 2023-06-01. -/
def exProdA : CatalogProduct :=
  ⟨"gid://shopify/Product/A", "Prod A", ["sku:1"], "2023-01-01"⟩

def exProdB : CatalogProduct :=
  ⟨"gid://shopify/Product/B", "Prod B", ["sku:1"], "2023-06-01"⟩

theorem claim8_duplicate_candidates_witness :
    deleteCandidates (findDuplicates [exProdA, exProdB]).1 =
      [{ id := "gid://shopify/Product/A", title := "Prod A",
         reason := "Duplicate SKU tag: 1", createdAt := "2023-01-01" }]
    ∧ (sortByCreated [exProdA, exProdB]).getLast? = some exProdB
    ∧ (1 < ([exProdA, exProdB] : List CatalogProduct).length ∧
      ∃ retained,
        (sortByCreated [exProdA, exProdB]).getLast? = some retained ∧
        retained ∈ [exProdA, exProdB] ∧
        (∀ e ∈ [exProdA, exProdB], lexLt retained.createdAt.data e.createdAt.data = false) ∧
        (sortByCreated [exProdA, exProdB]).dropLast ++ [retained] =
          sortByCreated [exProdA, exProdB] ∧
        List.Perm ((sortByCreated [exProdA, exProdB]).dropLast ++ [retained])
          [exProdA, exProdB] ∧
        candidatesOfGroup "1" [exProdA, exProdB] =
          ((sortByCreated [exProdA, exProdB]).dropLast).map (mkDeleteItem "1") ∧
        (candidatesOfGroup "1" [exProdA, exProdB]).length =
          ([exProdA, exProdB] : List CatalogProduct).length - 1 ∧
        ∀ d ∈ candidatesOfGroup "1" [exProdA, exProdB],
          d.reason = "Duplicate SKU tag: " ++ "1") :=
  ⟨by decide, by decide,
    claim8_duplicate_candidates [exProdA, exProdB] "1" [exProdA, exProdB] (by decide)⟩

/-- C9 (confirmed).  Confirmation gate: unless the operator types the exact
token `DELETE`, the bulk-delete run issues no `productDelete` request and
never writes the deletion log — for every input file and every other
response the trace is empty.  (A missing or malformed file likewise
returns before the prompt.) -/
theorem claim9_confirmation_gate (file : Option (List DeleteItem)) (confirmation : String)
    (hconf : confirmation ≠ "DELETE") :
    (deleteProductsFromFile file confirmation).requests = []
    ∧ (deleteProductsFromFile file confirmation).logWrites = 0 := by
  cases file with
  | none => exact ⟨rfl, rfl⟩
  | some products =>
    rw [deleteProductsFromFile, if_pos hconf]
    exact ⟨rfl, rfl⟩

theorem claim9_confirmation_gate_witness :
    (deleteProductsFromFile
        (some [⟨"gid://shopify/Product/A", "Prod A", "Duplicate SKU tag: 1", "2023-01-01"⟩])
        "delete").requests = []
    ∧ (deleteProductsFromFile
        (some [⟨"gid://shopify/Product/A", "Prod A", "Duplicate SKU tag: 1", "2023-01-01"⟩])
        "delete").logWrites = 0 :=
  claim9_confirmation_gate
    (some [⟨"gid://shopify/Product/A", "Prod A", "Duplicate SKU tag: 1", "2023-01-01"⟩])
    "delete" (by decide)

/-- C10 (confirmed, implicit).  A failed status query — transport error,
non-JSON body, or a GraphQL `errors` reply — makes
`check_bulk_operation_status` return the same `none` as a well-formed
"no current job" reply; the wait loop cannot tell them apart, treats the
slot as free, returns after zero sleep-poll cycles, and the new bulk job
is submitted immediately. -/
theorem claim10_failed_status_query :
    (checkBulkOperationStatus QueryResponse.requestError =
        checkBulkOperationStatus (QueryResponse.ok none)
      ∧ checkBulkOperationStatus QueryResponse.invalidJson =
        checkBulkOperationStatus (QueryResponse.ok none)
      ∧ checkBulkOperationStatus QueryResponse.graphqlErrors =
        checkBulkOperationStatus (QueryResponse.ok none)
      ∧ checkBulkOperationStatus (QueryResponse.ok none) = none)
    ∧ (∀ (failing : QueryResponse) (rest : List QueryResponse),
        checkBulkOperationStatus failing = none →
        waitForBulkOperationCompletion (failing :: rest) = some (0, rest)
        ∧ runBulkProductSetWithQueue (failing :: rest) = some (0, 1)) := by
  refine ⟨⟨rfl, rfl, rfl, rfl⟩, fun failing rest h => ?_⟩
  have hw := wait_head_free failing rest (Or.inl h)
  exact ⟨hw, by simp [runBulkProductSetWithQueue, hw]⟩

end ShopifyBulk
